import Mathlib

/-!
# rrdtg: viewport, zoom and catalog of the RRD terminal grapher

A shallow embedding of `main.go`.  Conventions of the embedding:

* Go `uint` is a `Nat` reduced modulo `2 ^ w` after every multiplication; the word
  size `w` (32 or 64 in Go) is an explicit parameter of every function that
  multiplies two `uint`s.
* Go `int` values that are indices, lengths and scroll offsets (`vScroll`,
  `pointCount`, `RowCnt`, loop counters) are `Int`/`Nat` without wrap-around; division
  of `int`s is `Int.tdiv` (Go truncates toward zero).  These values stay far from the
  `int` range: `vScroll` moves by at most 12 per key and the rescale keeps
  `vScroll * layouts[layout]` within one row of its value, and `pointCount` and
  `RowCnt` are bounded by the terminal width and by `SetMaxRows`.  `timeZoom`, by
  contrast, doubles with every key press, so its `uint` wrap-around is modelled.
* Go `map[string]bool` is an association list read at the first matching key.  The
  iteration order of a Go map is unspecified; `range` over a map is modelled by
  insertion order, one of the orders Go may choose.
* The storage library (`rrd.Info`, `Xport`) and the floating-point values it returns
  are parameters.
-/

namespace Rrdtg

/-! ## Go maps with string keys -/

/-- A Go `map[string]bool`. -/
abbrev GoMap := List (String × Bool)

/-- Two-valued read `v, ok := m[k]`: `none` when the key is absent. -/
def mapLookup : GoMap → String → Option Bool
  | [], _ => none
  | (k', v) :: rest, k => if k' = k then some v else mapLookup rest k

/-- One-valued read `m[k]`: the zero value `false` when the key is absent. -/
def mapGet (m : GoMap) (k : String) : Bool :=
  (mapLookup m k).getD false

/-- Assignment `m[k] = v`: overwrite the entry of `k`, or add one. -/
def mapSet : GoMap → String → Bool → GoMap
  | [], k, v => [(k, v)]
  | (k', v') :: rest, k, v =>
    if k' = k then (k, v) :: rest else (k', v') :: mapSet rest k v

/-- The keys of a map, in the order `range` visits them in this model. -/
def mapKeys (m : GoMap) : List String :=
  m.map Prod.fst

/-! ## Package-level constants and variables -/

/-- `var layouts = []int{1, 2, 3, 4, 6, 12}`. -/
def layouts : List Int := [1, 2, 3, 4, 6, 12]

/-- `layouts[layout]` for a layout index, which the program only ever sets to `0..5`. -/
def layoutDim (layout : Fin 6) : Int :=
  layouts.getD layout.val 0

/-- `const cfErr = "err"`. -/
def cfErr : String := "err"

/-- `const timeZoomFractions = 256`. -/
def timeZoomFractions : Nat := 256

/-- `math.MaxUint32`. -/
def maxUint32 : Nat := 4294967295

/-- The struct `all`: aggregated info for all rrd files in scope. -/
structure All where
  lastUpdate : Int
  cfs : GoMap
  minSecPerRow : Nat
  deriving DecidableEq, Repr

/-- The initial value of `all`. -/
def allInit : All :=
  { lastUpdate := 0, cfs := [(cfErr, true)], minSecPerRow := maxUint32 }

/-- Conversion of an integer to Go `int64` (two's complement wrap-around). -/
def wrapInt64 (z : Int) : Int :=
  (z + 2 ^ 63) % 2 ^ 64 - 2 ^ 63

/-- The `uint` expression `timeZoom*all.minSecPerRow/timeZoomFractions` inside
`timeZoomResolution`: the display resolution in seconds. -/
def timeZoomResolutionSec (w timeZoom minSecPerRow : Nat) : Nat :=
  ((timeZoom * minSecPerRow) % 2 ^ w) / timeZoomFractions

/-- The function `timeZoomResolution`: a `time.Duration`, that is an `int64` count of
nanoseconds, `time.Second * time.Duration(...)`. -/
def timeZoomResolution (w timeZoom minSecPerRow : Nat) : Int :=
  wrapInt64 (1000000000 * wrapInt64 (timeZoomResolutionSec w timeZoom minSecPerRow))

/-- The view state: the package-level variables `timeZoom`, `vScroll`, `end`, `layout`
and `mode`, together with `all`.  `endTime` is `end` in nanoseconds. -/
structure View where
  timeZoom : Nat
  vScroll : Int
  endTime : Int
  layout : Fin 6
  mode : Nat
  all : All
  deriving DecidableEq, Repr

/-! ## `switchAllCf` -/

/-- The function `switchAllCf` on the map `all.cfs`. -/
def switchAllCf (cfs : GoMap) (cf : String) : GoMap :=
  match mapLookup cfs cf with
  | some _ => mapSet cfs cf (!(mapGet cfs cf))
  | none => cfs

/-! ## `handleInput` -/

/-- The special keys `handleInput` tests `e.Key` against. -/
inductive Key where
  | PgUp | PgDn | ArrowUp | ArrowDown | ArrowLeft | ArrowRight
  | F1 | F2 | F3 | F4 | Space | Unbound
  deriving DecidableEq, Repr

/-- An event read from `termui.EventCh()`: a key press with its character `Ch` and
special key `Key`, a resize, or any other event type. -/
inductive Event where
  | key (ch : Char) (k : Key)
  | resize
  | ignored
  deriving DecidableEq, Repr

/-- The rescale of `vScroll` on a layout change:
`vScroll * layouts[prevLayout] / layouts[layout]`. -/
def rescale (vScroll : Int) (prevLayout layout : Fin 6) : Int :=
  (vScroll * layoutDim prevLayout).tdiv (layoutDim layout)

/-- The `switch e.Key` of `handleInput` (case `e.Ch == 0`). -/
def handleSpecialKey (w : Nat) (s : View) : Key → View
  | .PgUp => { s with vScroll := s.vScroll - layoutDim s.layout }
  | .PgDn => { s with vScroll := s.vScroll + layoutDim s.layout }
  | .ArrowUp => { s with vScroll := s.vScroll - 1 }
  | .ArrowDown => { s with vScroll := s.vScroll + 1 }
  | .ArrowLeft =>
    { s with endTime := s.endTime +
        wrapInt64 (-(timeZoomResolution w s.timeZoom s.all.minSecPerRow) * 10) }
  | .ArrowRight =>
    { s with endTime := s.endTime +
        wrapInt64 (timeZoomResolution w s.timeZoom s.all.minSecPerRow * 10) }
  | .F1 => { s with all := { s.all with cfs := switchAllCf s.all.cfs "AVERAGE" } }
  | .F2 => { s with all := { s.all with cfs := switchAllCf s.all.cfs "MAX" } }
  | .F3 => { s with all := { s.all with cfs := switchAllCf s.all.cfs "MIN" } }
  | .F4 => { s with all := { s.all with cfs := switchAllCf s.all.cfs cfErr } }
  | .Space => { s with mode := (s.mode + 1) % 2 }
  | .Unbound => s

/-- The `switch e.Ch` of `handleInput`; `none` is `os.Exit(0)` on `q`. -/
def handleKey (w : Nat) (s : View) (ch : Char) (k : Key) : Option View :=
  if ch.toNat = 0 then some (handleSpecialKey w s k)
  else if ch = '1' then some { s with layout := 0 }
  else if ch = '2' then some { s with layout := 1 }
  else if ch = '3' then some { s with layout := 2 }
  else if ch = '4' then some { s with layout := 3 }
  else if ch = '5' then some { s with layout := 4 }
  else if ch = '6' then some { s with layout := 5 }
  else if ch = 'h' then some s
  else if ch = 'q' then none
  else if ch = '=' then
    let timeZoom := s.timeZoom / 2
    some { s with timeZoom := if timeZoom = 0 then 1 else timeZoom }
  else if ch = '-' then some { s with timeZoom := (s.timeZoom * 2) % 2 ^ w }
  else if ch = '/' then some { s with timeZoom := timeZoomFractions }
  else some s

/-- The function `handleInput` applied to the event it received: the key is handled,
then `vScroll` is rescaled when the layout changed.  `none` when the process exits. -/
def handleInput (w : Nat) (s : View) (e : Event) : Option View :=
  let prevLayout := s.layout
  let handled : Option View :=
    match e with
    | .key ch k => handleKey w s ch k
    | .resize => some s
    | .ignored => some s
  handled.map fun s1 =>
    if prevLayout ≠ s1.layout then
      { s1 with vScroll := rescale s1.vScroll prevLayout s1.layout }
    else s1

/-- Several events handled one after the other. -/
def handleInputs (w : Nat) : View → List Event → Option View
  | s, [] => some s
  | s, e :: es => (handleInput w s e).bind fun s1 => handleInputs w s1 es

/-- The key that halves `timeZoom`. -/
def halveKey : Event := .key '=' .Unbound

/-- The key that doubles `timeZoom`. -/
def doubleKey : Event := .key '-' .Unbound

/-- The key that resets `timeZoom`. -/
def resetKey : Event := .key '/' .Unbound

/-- The digit key selecting the layout index `l`. -/
def layoutKey (l : Fin 6) : Event :=
  .key (Char.ofNat (49 + l.val)) .Unbound

/-- The view at program start, over a given `all`. -/
def viewInit (all : All) : View :=
  { timeZoom := timeZoomFractions, vScroll := 0, endTime := all.lastUpdate * 1000000000,
    layout := 0, mode := 0, all := all }

/-- The largest loss of the round trip between the grid dimensions `A` and `B`, as the
amended layout claim states it: with `a = A / gcd A B` and `b = B / gcd A B`, the
quotient `(a + b - 2) / a`. -/
def roundTripLoss (A B : Int) : Int :=
  (A / Int.gcd A B + B / Int.gcd A B - 2) / (A / Int.gcd A B)

/-- The pairs of grid dimensions `(A, B)` on which the round trip from `A` to `B` and
back can lose more than one row. -/
def widePairs : List (Int × Int) :=
  [(1, 3), (1, 4), (1, 6), (1, 12), (2, 6), (2, 12), (3, 12), (4, 12)]

/-! ## `getDatasetsFromFiles` -/

/-- The entries of the `rrd.Info` result that `getDatasetsFromFiles` reads: `"step"`,
`"rra.pdp_per_row"`, `"last_update"`, the keys of `"ds.type"` and `"rra.cf"`. -/
structure Info where
  step : Nat
  pdp_per_row : List Nat
  last_update : Nat
  ds_type : List String
  rra_cf : List String
  deriving DecidableEq, Repr

/-- The struct `rrdFile`; `err` is `none` for Go's `nil`. -/
structure rrdFile where
  file : String
  lastUpdate : Int
  ds : GoMap
  cf : GoMap
  err : Option String
  deriving DecidableEq, Repr

/-- The struct `dataset`: the embedded `*rrdFile`, a series name and a function name. -/
structure dataset where
  rrdFile : rrdFile
  ds : String
  cf : String
  deriving DecidableEq, Repr

/-- The globals `getDatasetsFromFiles` writes: the slice `datasets` and `all`. -/
structure Discovery where
  datasets : List dataset
  all : All
  deriving DecidableEq, Repr

/-- The state before discovery: no datasets, `all` at its initial value. -/
def discoveryInit : Discovery :=
  { datasets := [], all := allInit }

/-- The loop over `rra.pdp_per_row`: fold `step * pdpPerRow` (a `uint` product) into
`all.minSecPerRow`. -/
def foldSecPerRow (w step : Nat) (minSecPerRow : Nat) (pdp_per_row : List Nat) : Nat :=
  pdp_per_row.foldl
    (fun m pdpPerRow =>
      let secPerRow := (step * pdpPerRow) % 2 ^ w
      if m > secPerRow then secPerRow else m)
    minSecPerRow

/-- A set of names built by `m[name] = true` for every name of a list. -/
def nameSet (names : List String) : GoMap :=
  names.foldl (fun m name => mapSet m name true) []

/-- The loop "dataset is ds per cf": for every series name and every function name of
the file, mark the function in `all.cfs` and append a dataset. -/
def addDatasets (rrd : rrdFile) (st : Discovery) : Discovery :=
  (mapKeys rrd.ds).foldl
    (fun st ds =>
      (mapKeys rrd.cf).foldl
        (fun st cf =>
          { datasets := st.datasets ++ [{ rrdFile := rrd, ds := ds, cf := cf }],
            all := { st.all with cfs := mapSet st.all.cfs cf true } })
        st)
    st

/-- The `rrdFile` built for a file whose `rrd.Info` succeeded:
`&rrdFile{file, lastUpdate, make(map[string]bool), make(map[string]bool), nil}` with
the series names and the function names added. -/
def healthyFile (file : String) (info : Info) : rrdFile :=
  { file := file, lastUpdate := wrapInt64 info.last_update, ds := nameSet info.ds_type,
    cf := nameSet info.rra_cf, err := none }

/-- The dataset appended for a file whose `rrd.Info` failed:
`&dataset{&rrdFile{file, 0, nil, nil, err}, "", cfErr}`. -/
def erroredDataset (file err : String) : dataset :=
  { rrdFile := { file := file, lastUpdate := 0, ds := [], cf := [], err := some err },
    ds := "", cf := cfErr }

/-- The body of the loop of `getDatasetsFromFiles` for one file, given what `rrd.Info`
returned for it. -/
def addFile (w : Nat) (rrdInfo : String → Except String Info) (st : Discovery)
    (file : String) : Discovery :=
  match rrdInfo file with
  | .error err => { st with datasets := st.datasets ++ [erroredDataset file err] }
  | .ok info =>
    let minSecPerRow := foldSecPerRow w info.step st.all.minSecPerRow info.pdp_per_row
    let lastUpdate := wrapInt64 info.last_update
    let all : All :=
      { st.all with
        minSecPerRow := minSecPerRow
        lastUpdate := if st.all.lastUpdate < lastUpdate then lastUpdate else st.all.lastUpdate }
    addDatasets (healthyFile file info) { datasets := st.datasets, all := all }

/-- The function `getDatasetsFromFiles` over the slice `files`; `rrdInfo` is the
library call `rrd.Info`.  The Go function always returns `(nil, 0)`; the result here
is the state of the globals it leaves. -/
def getDatasetsFromFiles (w : Nat) (rrdInfo : String → Except String Info)
    (files : List String) (st : Discovery) : Discovery :=
  files.foldl (addFile w rrdInfo) st

/-- The datasets one file contributes, in the order they are appended: the errored
dataset, or one dataset per series name and function name. -/
def fileDatasets (rrdInfo : String → Except String Info) (file : String) : List dataset :=
  match rrdInfo file with
  | .error err => [erroredDataset file err]
  | .ok info =>
    (mapKeys (healthyFile file info).ds).flatMap fun ds =>
      (mapKeys (healthyFile file info).cf).map fun cf =>
        { rrdFile := healthyFile file info, ds := ds, cf := cf }

/-- The catalog size the specification gives one source: the number of distinct series
names times the number of distinct function names when the metadata query succeeded,
and 1 when it failed. -/
def specCatalogSize (rrdInfo : String → Except String Info) (file : String) : Nat :=
  match rrdInfo file with
  | .error _ => 1
  | .ok info => info.ds_type.toFinset.card * info.rra_cf.toFinset.card

/-- Whether the metadata query of a file failed. -/
def infoFailed (rrdInfo : String → Except String Info) (file : String) : Bool :=
  match rrdInfo file with
  | .error _ => true
  | .ok _ => false

/-- The products `step * pdpPerRow`, as `uint`s, of all archives of all files whose
metadata query succeeded. -/
def secPerRows (w : Nat) (rrdInfo : String → Except String Info) (files : List String) :
    List Nat :=
  files.flatMap fun file =>
    match rrdInfo file with
    | .error _ => []
    | .ok info => info.pdp_per_row.map fun pdpPerRow => (info.step * pdpPerRow) % 2 ^ w

/-! ## `renderLoop`: the datasets of one frame -/

/-- The slice `dsFiltered` of `renderLoop`: the datasets whose function is shown. -/
def filterDatasets (cfs : GoMap) (datasets : List dataset) : List dataset :=
  datasets.filter fun ds => mapGet cfs ds.cf

/-- Indexing a slice with an `int`: `none` is the run-time panic of an index out of
range. -/
def sliceAt {α : Type} (xs : List α) (i : Int) : Option α :=
  if 0 ≤ i then xs[i.toNat]? else none

/-- The `for` loop of `renderLoop` from the state `(i, dsIdx)`.  The result lists, in
call order, the cell number `i` and the index `idx` of every call
`renderDataset(dsFiltered[idx], ..., idx)`; `none` is a panic, or the fuel running out. -/
def frameLoop (cfs : GoMap) (dsFiltered : List dataset) (vScroll cells : Int) :
    Nat → Int → Int → List (Int × Int) → Option (List (Int × Int))
  | 0, _, _, _ => none
  | fuel + 1, i, dsIdx, calls =>
    if i < cells * cells ∧ dsIdx < dsFiltered.length then
      match sliceAt dsFiltered dsIdx with
      | none => none
      | some d =>
        if mapGet cfs d.cf then
          let idx := i + vScroll * cells
          match sliceAt dsFiltered idx with
          | none => none
          | some _ => frameLoop cfs dsFiltered vScroll cells fuel (i + 1) (dsIdx + 1)
              (calls ++ [(i, idx)])
        else frameLoop cfs dsFiltered vScroll cells fuel (i + 1) dsIdx calls
    else some calls

/-- The value of `vScroll` after the clamp at the head of `renderLoop`. -/
def clampScroll (vScroll : Int) : Int :=
  if vScroll < 0 then 0 else vScroll

/-- One iteration of `renderLoop` up to the drawing: the calls of `renderDataset`. -/
def renderLoopFrame (layout : Fin 6) (vScroll : Int) (cfs : GoMap)
    (datasets : List dataset) : Option (List (Int × Int)) :=
  let cells := layoutDim layout
  let vScroll := clampScroll vScroll
  let dsFiltered := filterDatasets cfs datasets
  let dsIdx := vScroll * cells
  frameLoop cfs dsFiltered vScroll cells ((cells * cells).toNat + 1) 0 dsIdx []

/-! ## `renderDataset`: time window and resampling -/

/-- The part of `rrd.XportResult` that `renderDataset` uses: the field `RowCnt` and the
accessor `ValueAt(column, row)`, over the library's value type `V` (`float64`). -/
structure XportResult (V : Type) where
  RowCnt : Int
  ValueAt : Int → Int → V

/-- What `renderDataset` returns: the line chart with its data and labels, or the
paragraph of `makeErrPar` with the error text. -/
inductive Widget (V : Type) where
  | chart (data : List V) (dataLabels : List String)
  | errPar (err : String)

/-- The number of display points of a cell of inner width `width` whose chart has the
mode `graphMode`. -/
def pointCount (width : Int) (graphMode : String) : Int :=
  let labelYSpace : Int := 10
  let pointCount := width - labelYSpace
  let pointCount := if graphMode = "braille" then pointCount * 2 else pointCount
  if pointCount ≤ 0 then 1 else pointCount

/-- The row read for display point `i`: `i*xportRes.RowCnt/pointCount`. -/
def sampleRow (i rowCnt pointCount : Int) : Int :=
  (i * rowCnt).tdiv pointCount

/-- The argument of `SetMaxRows`. -/
def maxRows (pointCount : Int) : Int :=
  if pointCount > 10 then pointCount else 10

/-- The resampling loop of `renderDataset` from display point `i`, writing `data[i]` and
`dataLabels[i]`.  `isNaN` is `math.IsNaN`, `zero` the value `0`, and `label` the text
`fmt.Sprint((v - endF) / resF)` of a time value; `none` is a panic (an assignment out
of range), or the fuel running out. -/
def resampleLoop {V : Type} (isNaN : V → Bool) (zero : V) (label : V → String)
    (xportRes : XportResult V) (pointCount : Int) :
    Nat → Int → List V → List String → Option (List V × List String)
  | 0, _, _, _ => none
  | fuel + 1, i, data, dataLabels =>
    if i < pointCount then
      let x := xportRes.ValueAt 0 (sampleRow i xportRes.RowCnt pointCount)
      let l := label (xportRes.ValueAt 1 (sampleRow i xportRes.RowCnt pointCount))
      if 0 ≤ i ∧ i.toNat < dataLabels.length ∧ i.toNat < data.length then
        resampleLoop isNaN zero label xportRes pointCount fuel (i + 1)
          (data.set i.toNat (if isNaN x then zero else x)) (dataLabels.set i.toNat l)
      else none
    else some (data, dataLabels)

/-- The `else` branch of `renderDataset` after a successful `Xport`: allocate `data` and
`dataLabels` with `make` and fill them. -/
def resample {V : Type} (isNaN : V → Bool) (zero : V) (label : V → String)
    (xportRes : XportResult V) (pointCount : Int) : Option (List V × List String) :=
  resampleLoop isNaN zero label xportRes pointCount (pointCount.toNat + 1) 0
    (List.replicate pointCount.toNat zero) (List.replicate pointCount.toNat "")

/-- The assignment `start = end.Add(-time.Duration(pointCount) * timeZoomResolution())`:
the left edge of the queried time window, in nanoseconds. -/
def windowStart (w : Nat) (s : View) (pointCount : Int) : Int :=
  s.endTime + wrapInt64 (-pointCount * timeZoomResolution w s.timeZoom s.all.minSecPerRow)

/-- The function `renderDataset` for a cell of inner width `width` and chart mode
`graphMode`.  `xport file ds cf start end maxRows` is the library query built with
`Def`, `XportDef`, `CDef`, `SetMaxRows` and `Xport`; times are in nanoseconds. -/
def renderDataset {V : Type} (w : Nat) (isNaN : V → Bool) (zero : V)
    (label : V → String)
    (xport : String → String → String → Int → Int → Int → Except String (XportResult V))
    (s : View) (dataset : dataset) (width : Int) (graphMode : String) :
    Option (Widget V) :=
  match dataset.rrdFile.err with
  | none =>
    let pointCount := pointCount width graphMode
    let start := windowStart w s pointCount
    match xport dataset.rrdFile.file dataset.ds dataset.cf start s.endTime
        (maxRows pointCount) with
    | .error err => some (.errPar err)
    | .ok xportRes =>
      (resample isNaN zero label xportRes pointCount).map fun r => .chart r.1 r.2
  | some err => some (.errPar err)

/-! ## Concrete inputs -/

/-- A query that always succeeds with 5 rows, the value of column `c` in row `r` being
`10 * r + c`; values are integers here. -/
def fiveRowXport : String → String → String → Int → Int → Int →
    Except String (XportResult Int) :=
  fun _ _ _ _ _ _ => .ok { RowCnt := 5, ValueAt := fun c r => 10 * r + c }

/-- A dataset of a healthy file. -/
def healthyDataset : dataset :=
  { rrdFile :=
      { file := "fileA", lastUpdate := 100, ds := [("temp", true)],
        cf := [("AVERAGE", true)], err := none },
    ds := "temp", cf := "AVERAGE" }

/-- A catalog of ten datasets with the function `AVERAGE`, one per file. -/
def tenDatasets : List dataset :=
  (List.range 10).map fun i =>
    { rrdFile :=
        { file := "file" ++ toString i, lastUpdate := 100, ds := [("temp", true)],
          cf := [("AVERAGE", true)], err := none },
      ds := "temp", cf := "AVERAGE" }

/-- The scenario of the specification: `fileA` has the series `temp`, the function
`AVERAGE`, step 60 and one archive of 1 sample per row; every other file fails. -/
def scenarioInfo : String → Except String Info :=
  fun file =>
    if file = "fileA" then
      .ok { step := 60, pdp_per_row := [1], last_update := 100, ds_type := ["temp"],
            rra_cf := ["AVERAGE"] }
    else .error "not an rrd file"

/-- A file with a step of one day and one archive of 50000 samples per row; every
other file fails. -/
def coarseInfo : String → Except String Info :=
  fun file =>
    if file = "fileA" then
      .ok { step := 86400, pdp_per_row := [50000], last_update := 100, ds_type := ["temp"],
            rra_cf := ["AVERAGE"] }
    else .error "not an rrd file"

/-! ## Facts about the map model -/

theorem mapLookup_mapSet (m : GoMap) (k : String) (v : Bool) (k' : String) :
    mapLookup (mapSet m k v) k' = if k' = k then some v else mapLookup m k' := by
  induction m with
  | nil =>
    by_cases h : k' = k
    · simp [mapSet, mapLookup, h]
    · have h' : ¬ k = k' := fun e => h e.symm
      simp [mapSet, mapLookup, h, h']
  | cons p rest ih =>
    obtain ⟨k0, v0⟩ := p
    by_cases h0 : k0 = k
    · subst h0
      by_cases h : k' = k0
      · simp [mapSet, mapLookup, h]
      · have h' : ¬ k0 = k' := fun e => h e.symm
        simp [mapSet, mapLookup, h, h']
    · by_cases h : k' = k
      · subst h
        simp [mapSet, mapLookup, h0, ih]
      · by_cases h1 : k0 = k'
        · subst h1
          simp [mapSet, mapLookup, h0]
        · simp [mapSet, mapLookup, h0, h1, ih, h]

theorem mapSet_of_lookup (m : GoMap) (k : String) (b : Bool)
    (h : mapLookup m k = some b) : mapSet m k b = m := by
  induction m with
  | nil => simp [mapLookup] at h
  | cons p rest ih =>
    obtain ⟨k0, v0⟩ := p
    by_cases h0 : k0 = k
    · subst h0
      simp [mapLookup] at h
      simp [mapSet, h]
    · simp [mapLookup, h0] at h
      simp [mapSet, h0, ih h]

theorem mapSet_mapSet (m : GoMap) (k : String) (v v' : Bool) :
    mapSet (mapSet m k v) k v' = mapSet m k v' := by
  induction m with
  | nil => simp [mapSet]
  | cons p rest ih =>
    obtain ⟨k0, v0⟩ := p
    by_cases h0 : k0 = k
    · simp [mapSet, h0]
    · simp [mapSet, h0, ih]

/-! ## Toggling a function name -/

/-- C8: calling `switchAllCf` twice with the same name restores the mapping, whether or
not the name is a key; one call leaves the mapping unchanged when the name is not a
key, and otherwise negates the flag of that name and of no other. -/
theorem switchAllCf_twice (cfs : GoMap) (cf : String) :
    switchAllCf (switchAllCf cfs cf) cf = cfs ∧
    (mapLookup cfs cf = none → switchAllCf cfs cf = cfs) ∧
    (∀ k, mapLookup (switchAllCf cfs cf) k =
      if k = cf then (mapLookup cfs k).map not else mapLookup cfs k) := by
  cases hl : mapLookup cfs cf with
  | none =>
    have h1 : switchAllCf cfs cf = cfs := by simp [switchAllCf, hl]
    refine ⟨by rw [h1, h1], fun _ => h1, fun k => ?_⟩
    rw [h1]
    by_cases hk : k = cf
    · subst hk
      simp [hl]
    · simp [hk]
  | some b =>
    have h1 : switchAllCf cfs cf = mapSet cfs cf (!b) := by
      simp [switchAllCf, hl, mapGet]
    have h2 : mapLookup (mapSet cfs cf (!b)) cf = some (!b) := by
      rw [mapLookup_mapSet]
      simp
    refine ⟨?_, fun h => by simp at h, fun k => ?_⟩
    · rw [h1]
      simp only [switchAllCf, h2, mapGet, Option.getD_some, Bool.not_not]
      rw [mapSet_mapSet]
      exact mapSet_of_lookup cfs cf b hl
    · rw [h1, mapLookup_mapSet]
      by_cases hk : k = cf
      · subst hk
        simp [hl]
      · simp [hk]

/-! ## Zoom keys -/

theorem handleInput_doubleKey (w : Nat) (s : View) :
    handleInput w s doubleKey = some { s with timeZoom := (s.timeZoom * 2) % 2 ^ w } := by
  simp [handleInput, handleKey, doubleKey]

theorem handleInput_halveKey (w : Nat) (s : View) :
    handleInput w s halveKey =
      some { s with timeZoom := if s.timeZoom / 2 = 0 then 1 else s.timeZoom / 2 } := by
  simp [handleInput, handleKey, halveKey]

theorem handleInput_resetKey (w : Nat) (s : View) :
    handleInput w s resetKey = some { s with timeZoom := timeZoomFractions } := by
  simp [handleInput, handleKey, resetKey]

theorem handleInput_layoutKey (w : Nat) (s : View) (b : Fin 6) :
    handleInput w s (layoutKey b) =
      some (if s.layout = b then s
        else { s with layout := b, vScroll := rescale s.vScroll s.layout b }) := by
  obtain ⟨tz, v, e, l, m, a⟩ := s
  fin_cases b <;> simp [handleInput, handleKey, layoutKey] <;> split <;> simp_all

theorem layoutDim_pos (l : Fin 6) : 1 ≤ layoutDim l := by
  fin_cases l <;> decide

theorem rescale_eq_ediv (v : Int) (a b : Fin 6) (hv : 0 ≤ v) :
    rescale v a b = v * layoutDim a / layoutDim b ∧ 0 ≤ rescale v a b := by
  have ha := layoutDim_pos a
  have hb := layoutDim_pos b
  have e : rescale v a b = v * layoutDim a / layoutDim b :=
    Int.tdiv_eq_ediv (Int.mul_nonneg hv (by omega)) (by omega)
  refine ⟨e, ?_⟩
  rw [e]
  exact Int.ediv_nonneg (Int.mul_nonneg hv (by omega)) (by omega)

theorem layoutDim_mem (l : Fin 6) : layoutDim l ∈ layouts := by
  fin_cases l <;> decide

theorem round_trip_bounds (v A B : Int) (hA : A ∈ layouts) (hB : B ∈ layouts) :
    v * A / B * B / A ≤ v ∧
    v - roundTripLoss A B ≤ v * A / B * B / A ∧
    ((A, B) ∉ widePairs → v - 1 ≤ v * A / B * B / A) := by
  simp only [layouts, List.mem_cons, List.mem_singleton, List.not_mem_nil, or_false] at hA hB
  rcases hA with rfl | rfl | rfl | rfl | rfl | rfl <;>
    rcases hB with rfl | rfl | rfl | rfl | rfl | rfl <;>
    refine ⟨by omega, ?_, ?_⟩ <;>
    first
      | (norm_num [roundTripLoss] <;> omega)
      | (intro h; omega)
      | (intro h; exact absurd (by decide) h)

theorem rescale_round_trip (v : Int) (a b : Fin 6) (hv : 0 ≤ v) :
    rescale (rescale v a b) b a ≤ v ∧
    v - roundTripLoss (layoutDim a) (layoutDim b) ≤ rescale (rescale v a b) b a ∧
    ((layoutDim a, layoutDim b) ∉ widePairs → v - 1 ≤ rescale (rescale v a b) b a) := by
  obtain ⟨e1, h1⟩ := rescale_eq_ediv v a b hv
  obtain ⟨e2, _⟩ := rescale_eq_ediv (rescale v a b) b a h1
  rw [e2, e1]
  exact round_trip_bounds v _ _ (layoutDim_mem a) (layoutDim_mem b)

theorem handleSpecialKey_timeZoom (w : Nat) (s : View) (k : Key) :
    (handleSpecialKey w s k).timeZoom = s.timeZoom := by
  cases k <;> rfl

theorem handleSpecialKey_minSecPerRow (w : Nat) (s : View) (k : Key) :
    (handleSpecialKey w s k).all.minSecPerRow = s.all.minSecPerRow := by
  cases k <;> rfl

theorem handleKey_timeZoom (w : Nat) (s s' : View) (ch : Char) (k : Key)
    (hs' : handleKey w s ch k = some s') :
    (s'.timeZoom = s.timeZoom ∨
      s'.timeZoom = (if s.timeZoom / 2 = 0 then 1 else s.timeZoom / 2) ∨
      s'.timeZoom = (s.timeZoom * 2) % 2 ^ w ∨
      s'.timeZoom = timeZoomFractions) ∧
    s'.all.minSecPerRow = s.all.minSecPerRow := by
  by_cases c0 : ch.toNat = 0
  · rw [handleKey, if_pos c0] at hs'
    cases hs'
    exact ⟨Or.inl (handleSpecialKey_timeZoom w s k), handleSpecialKey_minSecPerRow w s k⟩
  by_cases c1 : ch = '1'
  · rw [handleKey, if_neg c0, if_pos c1] at hs'
    cases hs'
    exact ⟨Or.inl rfl, rfl⟩
  by_cases c2 : ch = '2'
  · rw [handleKey, if_neg c0, if_neg c1, if_pos c2] at hs'
    cases hs'
    exact ⟨Or.inl rfl, rfl⟩
  by_cases c3 : ch = '3'
  · rw [handleKey, if_neg c0, if_neg c1, if_neg c2, if_pos c3] at hs'
    cases hs'
    exact ⟨Or.inl rfl, rfl⟩
  by_cases c4 : ch = '4'
  · rw [handleKey, if_neg c0, if_neg c1, if_neg c2, if_neg c3, if_pos c4] at hs'
    cases hs'
    exact ⟨Or.inl rfl, rfl⟩
  by_cases c5 : ch = '5'
  · rw [handleKey, if_neg c0, if_neg c1, if_neg c2, if_neg c3, if_neg c4, if_pos c5] at hs'
    cases hs'
    exact ⟨Or.inl rfl, rfl⟩
  by_cases c6 : ch = '6'
  · rw [handleKey, if_neg c0, if_neg c1, if_neg c2, if_neg c3, if_neg c4, if_neg c5,
      if_pos c6] at hs'
    cases hs'
    exact ⟨Or.inl rfl, rfl⟩
  by_cases c7 : ch = 'h'
  · rw [handleKey, if_neg c0, if_neg c1, if_neg c2, if_neg c3, if_neg c4, if_neg c5,
      if_neg c6, if_pos c7] at hs'
    cases hs'
    exact ⟨Or.inl rfl, rfl⟩
  by_cases c8 : ch = 'q'
  · rw [handleKey, if_neg c0, if_neg c1, if_neg c2, if_neg c3, if_neg c4, if_neg c5,
      if_neg c6, if_neg c7, if_pos c8] at hs'
    cases hs'
  by_cases c9 : ch = '='
  · rw [handleKey, if_neg c0, if_neg c1, if_neg c2, if_neg c3, if_neg c4, if_neg c5,
      if_neg c6, if_neg c7, if_neg c8, if_pos c9] at hs'
    cases hs'
    exact ⟨Or.inr (Or.inl rfl), rfl⟩
  by_cases c10 : ch = '-'
  · rw [handleKey, if_neg c0, if_neg c1, if_neg c2, if_neg c3, if_neg c4, if_neg c5,
      if_neg c6, if_neg c7, if_neg c8, if_neg c9, if_pos c10] at hs'
    cases hs'
    exact ⟨Or.inr (Or.inr (Or.inl rfl)), rfl⟩
  by_cases c11 : ch = '/'
  · rw [handleKey, if_neg c0, if_neg c1, if_neg c2, if_neg c3, if_neg c4, if_neg c5,
      if_neg c6, if_neg c7, if_neg c8, if_neg c9, if_neg c10, if_pos c11] at hs'
    cases hs'
    exact ⟨Or.inr (Or.inr (Or.inr rfl)), rfl⟩
  · rw [handleKey, if_neg c0, if_neg c1, if_neg c2, if_neg c3, if_neg c4, if_neg c5,
      if_neg c6, if_neg c7, if_neg c8, if_neg c9, if_neg c10, if_neg c11] at hs'
    cases hs'
    exact ⟨Or.inl rfl, rfl⟩

theorem handleInput_key_timeZoom (w : Nat) (s s' : View) (ch : Char) (k : Key)
    (hs' : handleInput w s (.key ch k) = some s') :
    ∃ s1, handleKey w s ch k = some s1 ∧ s'.timeZoom = s1.timeZoom ∧
      s'.all = s1.all := by
  unfold handleInput at hs'
  cases hk : handleKey w s ch k with
  | none => simp [hk] at hs'
  | some s1 =>
    refine ⟨s1, rfl, ?_⟩
    simp only [hk, Option.map_some', Option.some.injEq] at hs'
    rw [← hs']
    split <;> exact ⟨rfl, rfl⟩

theorem pow_two_halve (tz : Nat) (h : tz = 0 ∨ ∃ k, tz = 2 ^ k) :
    ∃ k, (if tz / 2 = 0 then 1 else tz / 2) = 2 ^ k := by
  by_cases h0 : tz / 2 = 0
  · exact ⟨0, by rw [if_pos h0]; rfl⟩
  · rw [if_neg h0]
    rcases h with h | ⟨k, hk⟩
    · omega
    · cases k with
      | zero => simp [hk] at h0
      | succ k => exact ⟨k, by rw [hk, pow_succ]; omega⟩

theorem pow_two_double (w tz : Nat) (h : tz = 0 ∨ ∃ k, tz = 2 ^ k) :
    (tz * 2) % 2 ^ w = 0 ∨ ∃ k, (tz * 2) % 2 ^ w = 2 ^ k := by
  rcases h with h | ⟨k, hk⟩
  · exact Or.inl (by simp [h])
  · have e : tz * 2 = 2 ^ (k + 1) := by rw [hk, pow_succ]
    rw [e]
    by_cases hlt : k + 1 < w
    · exact Or.inr ⟨k + 1, Nat.mod_eq_of_lt (Nat.pow_lt_pow_right (by decide) hlt)⟩
    · exact Or.inl (Nat.mod_eq_zero_of_dvd (Nat.pow_dvd_pow 2 (by omega)))

theorem handleInput_timeZoom_pow (w : Nat) (s s' : View) (e : Event)
    (h : s.timeZoom = 0 ∨ ∃ k, s.timeZoom = 2 ^ k) (hs' : handleInput w s e = some s') :
    (s'.timeZoom = 0 ∨ ∃ k, s'.timeZoom = 2 ^ k) ∧
    s'.all.minSecPerRow = s.all.minSecPerRow := by
  cases e with
  | key ch k =>
    obtain ⟨s1, hs1, e1, e2⟩ := handleInput_key_timeZoom w s s' ch k hs'
    obtain ⟨hc, hm⟩ := handleKey_timeZoom w s s1 ch k hs1
    refine ⟨?_, by rw [e2, hm]⟩
    rw [e1]
    rcases hc with c | c | c | c <;> rw [c]
    · exact h
    · exact Or.inr (pow_two_halve s.timeZoom h)
    · exact pow_two_double w s.timeZoom h
    · exact Or.inr ⟨8, rfl⟩
  | resize =>
    simp [handleInput] at hs'
    rw [← hs']
    exact ⟨h, rfl⟩
  | ignored =>
    simp [handleInput] at hs'
    rw [← hs']
    exact ⟨h, rfl⟩

theorem handleInputs_timeZoom_pow (w : Nat) (es : List Event) :
    ∀ s s' : View, (s.timeZoom = 0 ∨ ∃ k, s.timeZoom = 2 ^ k) →
      handleInputs w s es = some s' →
      (s'.timeZoom = 0 ∨ ∃ k, s'.timeZoom = 2 ^ k) ∧
      s'.all.minSecPerRow = s.all.minSecPerRow := by
  induction es with
  | nil =>
    intro s s' h hs'
    simp only [handleInputs, Option.some.injEq] at hs'
    rw [← hs']
    exact ⟨h, rfl⟩
  | cons e rest ih =>
    intro s s' h hs'
    simp only [handleInputs] at hs'
    cases hstep : handleInput w s e with
    | none => simp [hstep] at hs'
    | some s1 =>
      rw [hstep, Option.some_bind] at hs'
      obtain ⟨p1, m1⟩ := handleInput_timeZoom_pow w s s1 e h hstep
      obtain ⟨p2, m2⟩ := ih s1 s' p1 hs'
      exact ⟨p2, by rw [m2, m1]⟩

theorem wrapInt64_of_range (z : Int) (h1 : -(2 ^ 63) ≤ z) (h2 : z < 2 ^ 63) :
    wrapInt64 z = z := by
  unfold wrapInt64
  omega

theorem timeZoomResolution_eq (w tz m : Nat)
    (h : (tz * m) % 2 ^ w / 256 ≤ 9223372036) :
    timeZoomResolution w tz m = 1000000000 * (((tz * m) % 2 ^ w / 256 : Nat) : Int) := by
  unfold timeZoomResolution timeZoomResolutionSec timeZoomFractions
  generalize (tz * m) % 2 ^ w / 256 = x at h
  rw [wrapInt64_of_range (x : Int) (by omega) (by omega),
    wrapInt64_of_range (1000000000 * (x : Int)) (by omega) (by omega)]

/-- C6, as amended: for every view whose `timeZoom` is at least 1 and can be doubled
without leaving the `uint` range, the double-zoom key followed by the halve-zoom key
returns the view, hence `timeZoom` and the display resolution, to the original value. -/
theorem double_then_halve_restores (w : Nat) (s : View) (h1 : 1 ≤ s.timeZoom)
    (h2 : s.timeZoom * 2 < 2 ^ w) :
    handleInputs w s [doubleKey, halveKey] = some s ∧
    ∀ s', handleInputs w s [doubleKey, halveKey] = some s' →
      s'.timeZoom = s.timeZoom ∧
      timeZoomResolution w s'.timeZoom s'.all.minSecPerRow =
        timeZoomResolution w s.timeZoom s.all.minSecPerRow := by
  have h : handleInputs w s [doubleKey, halveKey] = some s := by
    simp only [handleInputs, handleInput_doubleKey, handleInput_halveKey, Option.some_bind,
      Nat.mod_eq_of_lt h2]
    have h3 : s.timeZoom * 2 / 2 = s.timeZoom := by omega
    have h4 : ¬ s.timeZoom = 0 := by omega
    simp [h3, h4]
  refine ⟨h, fun s' hs' => ?_⟩
  rw [h] at hs'
  cases hs'
  exact ⟨rfl, rfl⟩

/-- The amended C6 at full scale, `timeZoom = 256`, on a 64-bit `uint`. -/
theorem double_then_halve_restores_witness :
    handleInputs 64 (viewInit allInit) [doubleKey, halveKey] = some (viewInit allInit) :=
  (double_then_halve_restores 64 (viewInit allInit) (by decide) (by decide)).1

set_option maxRecDepth 100000 in
/-- C6 fails as stated: on a 64-bit `uint`, 55 presses of the double-zoom key take
`timeZoom` from 256 to `2 ^ 63`; doubling once more wraps to 0, and halving then gives
the floor 1, so neither `timeZoom` nor the resolution in seconds comes back. -/
theorem double_then_halve_counterexample :
    (handleInputs 64 (viewInit { allInit with minSecPerRow := 1 })
        (List.replicate 55 doubleKey)).map (fun s => s.timeZoom) = some (2 ^ 63) ∧
    (handleInputs 64 { viewInit { allInit with minSecPerRow := 1 } with timeZoom := 2 ^ 63 }
        [doubleKey, halveKey]).map (fun s => s.timeZoom) = some 1 ∧
    timeZoomResolutionSec 64 (2 ^ 63) 1 = 2 ^ 55 ∧
    timeZoomResolutionSec 64 1 1 = 0 := by
  decide

set_option maxRecDepth 100000 in
/-- C7 fails as stated: with `minSecPerRow = 1`, one press of the halve-zoom key from
full scale gives `timeZoom = 128` and a resolution of `128 * 1 / 256 = 0`; with
`minSecPerRow = 60`, eight presses give `timeZoom = 1` and again the resolution 0.
Zooming out fails too on a 64-bit `uint`: with `minSecPerRow = 60`, 28 presses of the
double-zoom key give 16106127360 seconds, whose nanoseconds wrap the `int64` to a
negative duration, and with `minSecPerRow = 16`, 52 presses give `timeZoom = 2 ^ 60`,
whose product with 16 wraps the `uint` to 0. -/
theorem resolution_floor_counterexample :
    (handleInputs 64 (viewInit { allInit with minSecPerRow := 1 }) [halveKey]).map
      (fun s => (s.timeZoom, timeZoomResolution 64 s.timeZoom s.all.minSecPerRow)) =
      some (128, 0) ∧
    (handleInputs 64 (viewInit { allInit with minSecPerRow := 60 })
      (List.replicate 8 halveKey)).map
      (fun s => (s.timeZoom, timeZoomResolution 64 s.timeZoom s.all.minSecPerRow)) =
      some (1, 0) ∧
    (handleInputs 64 (viewInit { allInit with minSecPerRow := 60 })
      (List.replicate 28 doubleKey)).map
      (fun s => (s.timeZoom, timeZoomResolution 64 s.timeZoom s.all.minSecPerRow)) =
      some (68719476736, -2340616713709551616) ∧
    (handleInputs 64 (viewInit { allInit with minSecPerRow := 16 })
      (List.replicate 52 doubleKey)).map
      (fun s => (s.timeZoom, timeZoomResolution 64 s.timeZoom s.all.minSecPerRow)) =
      some (2 ^ 60, 0) := by
  decide

/-- C7, as amended: for every `minSecPerRow` and every `timeZoom` reached from full
scale by any sequence of events, the halve, double and reset zoom keys included,
`timeZoom` is 0 or a power of two and `minSecPerRow` is unchanged; the floor 1 is a
floor of `timeZoom` after the halve-zoom key, not of the resolution.  Whenever the
seconds `(timeZoom * minSecPerRow mod 2 ^ w) / 256` are at most 9223372036, so that
their nanoseconds fit the `int64`, `timeZoomResolution` is exactly that many seconds:
it is at least 1 second exactly when `timeZoom * minSecPerRow mod 2 ^ w` is at least
256, and it is 0 below.  In particular it is at least `minSecPerRow` seconds, hence at
least 1 second for `minSecPerRow ≥ 1`, when `timeZoom` is at least 256 and neither the
`uint` product nor the `int64` duration wraps. -/
theorem resolution_floor (w : Nat) (all : All) (es : List Event) (s' : View)
    (hrun : handleInputs w (viewInit all) es = some s') :
    (s'.timeZoom = 0 ∨ ∃ k, s'.timeZoom = 2 ^ k) ∧
    s'.all.minSecPerRow = all.minSecPerRow ∧
    (∃ s'', handleInput w s' halveKey = some s'' ∧ 1 ≤ s''.timeZoom) ∧
    ((s'.timeZoom * all.minSecPerRow) % 2 ^ w / 256 ≤ 9223372036 →
      timeZoomResolution w s'.timeZoom all.minSecPerRow =
        1000000000 * (((s'.timeZoom * all.minSecPerRow) % 2 ^ w / 256 : Nat) : Int) ∧
      (1000000000 ≤ timeZoomResolution w s'.timeZoom all.minSecPerRow ↔
        256 ≤ (s'.timeZoom * all.minSecPerRow) % 2 ^ w)) ∧
    ((s'.timeZoom * all.minSecPerRow) % 2 ^ w < 256 →
      timeZoomResolution w s'.timeZoom all.minSecPerRow = 0) ∧
    (256 ≤ s'.timeZoom → 1 ≤ all.minSecPerRow →
      s'.timeZoom * all.minSecPerRow < 2 ^ w →
      s'.timeZoom * all.minSecPerRow / 256 ≤ 9223372036 →
      1000000000 ≤ 1000000000 * (all.minSecPerRow : Int) ∧
      1000000000 * (all.minSecPerRow : Int) ≤
        timeZoomResolution w s'.timeZoom all.minSecPerRow) := by
  obtain ⟨hpow, hmin⟩ := handleInputs_timeZoom_pow w es (viewInit all) s'
    (Or.inr ⟨8, rfl⟩) hrun
  refine ⟨hpow, hmin, ?_, ?_, ?_, ?_⟩
  · refine ⟨_, handleInput_halveKey w s', ?_⟩
    show 1 ≤ if s'.timeZoom / 2 = 0 then 1 else s'.timeZoom / 2
    split <;> omega
  · intro h
    have e := timeZoomResolution_eq w s'.timeZoom all.minSecPerRow h
    refine ⟨e, ?_⟩
    rw [e]
    generalize (s'.timeZoom * all.minSecPerRow) % 2 ^ w = x
    omega
  · intro h
    have hle : (s'.timeZoom * all.minSecPerRow) % 2 ^ w / 256 ≤ 9223372036 := by
      generalize (s'.timeZoom * all.minSecPerRow) % 2 ^ w = x at h
      omega
    rw [timeZoomResolution_eq w s'.timeZoom all.minSecPerRow hle]
    generalize (s'.timeZoom * all.minSecPerRow) % 2 ^ w = x at h
    have : x / 256 = 0 := by omega
    rw [this]
    rfl
  · intro h256 hm hwrap hdur
    have hmod : (s'.timeZoom * all.minSecPerRow) % 2 ^ w = s'.timeZoom * all.minSecPerRow :=
      Nat.mod_eq_of_lt hwrap
    have hle : (s'.timeZoom * all.minSecPerRow) % 2 ^ w / 256 ≤ 9223372036 := by
      rw [hmod]
      exact hdur
    rw [timeZoomResolution_eq w s'.timeZoom all.minSecPerRow hle, hmod]
    have hq : all.minSecPerRow ≤ s'.timeZoom * all.minSecPerRow / 256 := by
      apply (Nat.le_div_iff_mul_le (by decide)).2
      rw [Nat.mul_comm]
      exact Nat.mul_le_mul_right _ h256
    generalize s'.timeZoom * all.minSecPerRow / 256 = q at hq
    generalize all.minSecPerRow = m at hm hq
    omega

/-- The amended C7 after the keys double, halve, halve from full scale with
`minSecPerRow = 60` on a 64-bit `uint`: `timeZoom = 128 = 2 ^ 7` and a resolution of
`128 * 60 / 256 = 30` seconds. -/
theorem resolution_floor_witness :
    ((128 : Nat) = 0 ∨ ∃ k, (128 : Nat) = 2 ^ k) ∧
    timeZoomResolution 64 128 60 = 1000000000 * (((128 * 60) % 2 ^ 64 / 256 : Nat) : Int) ∧
    timeZoomResolution 64 128 60 = 30000000000 :=
  have h := resolution_floor 64 { allInit with minSecPerRow := 60 }
    [doubleKey, halveKey, halveKey]
    { viewInit { allInit with minSecPerRow := 60 } with timeZoom := 128 } (by decide)
  ⟨h.1, (h.2.2.2.1 (by decide)).1, by decide⟩

/-! ## Layout change -/

/-- C3 fails as stated: in the 1-wide layout with `vScroll = 11`, the key `6` (12-wide
layout) rescales to `11 * 1 / 12 = 0` and the key `1` back to `0 * 12 / 1 = 0`, eleven
below the original value. -/
theorem layout_round_trip_counterexample :
    (handleInputs 64 { viewInit allInit with layout := 0, vScroll := 11 }
      [layoutKey 5]).map (fun s => (s.layout, s.vScroll)) = some (5, 0) ∧
    (handleInputs 64 { viewInit allInit with layout := 0, vScroll := 11 }
      [layoutKey 5, layoutKey 0]).map (fun s => (s.layout, s.vScroll)) = some (0, 0) := by
  decide

/-- C3, as amended: for grid dimensions `A` (current) and `B` and `vScroll = S ≥ 0`,
switching to `B` and back to `A` returns to the layout `A` with a `vScroll` that is at
most `S` and at least `S - (a + b - 2) / a`, where `a = A / gcd A B` and
`b = B / gcd A B`; it is within 1 of `S` for every pair `(A, B)` other than `(1, 3)`,
`(1, 4)`, `(1, 6)`, `(1, 12)`, `(2, 6)`, `(2, 12)`, `(3, 12)` and `(4, 12)`. -/
theorem layout_round_trip (w : Nat) (s : View) (b : Fin 6) (hS : 0 ≤ s.vScroll) :
    ∃ s', handleInputs w s [layoutKey b, layoutKey s.layout] = some s' ∧
      s'.layout = s.layout ∧ s'.vScroll ≤ s.vScroll ∧
      s.vScroll - roundTripLoss (layoutDim s.layout) (layoutDim b) ≤ s'.vScroll ∧
      ((layoutDim s.layout, layoutDim b) ∉ widePairs → s.vScroll - 1 ≤ s'.vScroll) := by
  obtain ⟨hb1, hb2, hb3⟩ := rescale_round_trip s.vScroll s.layout b hS
  by_cases h : s.layout = b
  · have hloss : 0 ≤ roundTripLoss (layoutDim s.layout) (layoutDim b) := by
      rw [← h]
      have hm := layoutDim_mem s.layout
      simp only [layouts, List.mem_cons, List.mem_singleton, List.not_mem_nil,
        or_false] at hm
      rcases hm with e | e | e | e | e | e <;> rw [e] <;> decide
    refine ⟨s, ?_, rfl, le_refl _, by omega, fun _ => by omega⟩
    simp [handleInputs, handleInput_layoutKey, h]
  · have h' : ¬ b = s.layout := fun e => h e.symm
    refine ⟨{ s with vScroll := rescale (rescale s.vScroll s.layout b) b s.layout }, ?_, rfl,
      hb1, hb2, hb3⟩
    simp [handleInputs, handleInput_layoutKey, h, h']

/-- The pairs left out of the amended C3 are those on which the original fails: on each
of the eight pairs some `vScroll` comes back more than one row lower. -/
theorem layout_round_trip_wide_pairs :
    ∀ p ∈ [((0 : Fin 6), (2 : Fin 6), (2 : Int)), (0, 3, 3), (0, 4, 5), (0, 5, 11),
        (1, 4, 2), (1, 5, 5), (2, 5, 3), (3, 5, 2)],
      (layoutDim p.1, layoutDim p.2.1) ∈ widePairs ∧
      rescale (rescale p.2.2 p.1 p.2.1) p.2.1 p.1 < p.2.2 - 1 := by
  decide

/-- The amended C3 from the 2-wide layout to the 3-wide one with `vScroll = 7`. -/
theorem layout_round_trip_witness :
    ∃ s', handleInputs 64 { viewInit allInit with layout := 1, vScroll := 7 }
        [layoutKey 2, layoutKey 1] = some s' ∧
      s'.layout = 1 ∧ s'.vScroll ≤ 7 ∧
      7 - roundTripLoss (layoutDim 1) (layoutDim 2) ≤ s'.vScroll ∧
      ((layoutDim 1, layoutDim 2) ∉ widePairs → 7 - 1 ≤ s'.vScroll) :=
  layout_round_trip 64 { viewInit allInit with layout := 1, vScroll := 7 } 2 (by decide)

/-! ## Resampling -/

theorem sampleRow_eq_ediv (i R P : Int) (hi : 0 ≤ i) (hR : 0 ≤ R) (hP : 0 ≤ P) :
    sampleRow i R P = i * R / P :=
  Int.tdiv_eq_ediv (Int.mul_nonneg hi hR) hP

theorem sampleRow_bounds (P R i : Int) (hP : 1 ≤ P) (hR : 1 ≤ R) (h0 : 0 ≤ i)
    (hi : i < P) : 0 ≤ sampleRow i R P ∧ sampleRow i R P < R := by
  rw [sampleRow_eq_ediv i R P h0 (by omega) (by omega)]
  have h1 : 0 ≤ i * R / P := Int.ediv_nonneg (Int.mul_nonneg h0 (by omega)) (by omega)
  have h2 : i * R / P < R := by
    apply Int.ediv_lt_of_lt_mul (by omega)
    nlinarith
  exact ⟨h1, h2⟩

/-- C10: for a point count `P ≥ 1`, a row count `R ≥ 1` and a display point
`0 ≤ i < P`, the row `i * R / P` read through `ValueAt` lies in `0 .. R - 1`. -/
theorem sampleRow_in_range (P R i : Int) (hP : 1 ≤ P) (hR : 1 ≤ R) (h0 : 0 ≤ i)
    (hi : i < P) : 0 ≤ sampleRow i R P ∧ sampleRow i R P ≤ R - 1 := by
  have h := sampleRow_bounds P R i hP hR h0 hi
  exact ⟨h.1, by omega⟩

/-- C10 at 20 display points, 5 rows and the last display point, 19. -/
theorem sampleRow_in_range_witness : 0 ≤ sampleRow 19 5 20 ∧ sampleRow 19 5 20 ≤ 5 - 1 :=
  sampleRow_in_range 20 5 19 (by decide) (by decide) (by decide) (by decide)

/-- C5: when the point count is `k * R` for a row count `R ≥ 1` and `k ≥ 1`, the display
point `i` is mapped to the row `r` exactly when `r * k ≤ i < r * k + k`, so every row
`r < R` receives the `k` consecutive points `r * k .. r * k + k - 1` and no other; with
5 rows and 20 points each row receives 4 consecutive points. -/
theorem sampleRow_blocks (R k i r : Int) (hR : 1 ≤ R) (hk : 1 ≤ k) (h0 : 0 ≤ i)
    (hi : i < k * R) :
    (sampleRow i R (k * R) = r ↔ r * k ≤ i ∧ i < r * k + k) ∧
    (0 ≤ sampleRow i R (k * R) ∧ sampleRow i R (k * R) < R) ∧
    (0 ≤ r → r < R → 0 ≤ r * k ∧ r * k + k ≤ k * R) ∧
    (List.range 20).map (fun j : Nat => sampleRow j 5 20) =
      [0, 0, 0, 0, 1, 1, 1, 1, 2, 2, 2, 2, 3, 3, 3, 3, 4, 4, 4, 4] := by
  have hkR : 0 ≤ k * R := Int.mul_nonneg (by omega) (by omega)
  have hrange := sampleRow_bounds (k * R) R i (by nlinarith) hR h0 hi
  refine ⟨?_, hrange,
    fun hr0 hrR => ⟨Int.mul_nonneg hr0 (by omega), by nlinarith⟩, by decide⟩
  rw [sampleRow_eq_ediv i R (k * R) h0 (by omega) hkR,
    Int.mul_ediv_mul_of_pos_left i k (by omega : 0 < R)]
  have hk0 : 0 < k := by omega
  constructor
  · intro h
    subst h
    have p1 : i / k * k ≤ i := Int.ediv_mul_le i (by omega)
    have p2 : i < (i / k + 1) * k := Int.lt_ediv_add_one_mul_self i hk0
    constructor
    · exact p1
    · nlinarith
  · rintro ⟨h1, h2⟩
    have q1 : r ≤ i / k := (Int.le_ediv_iff_mul_le hk0).2 h1
    have q2 : i / k < r + 1 := (Int.ediv_lt_iff_lt_mul hk0).2 (by nlinarith)
    omega

/-- C5 at 5 rows and 4 points per row: the display point 13 reads the row 3. -/
theorem sampleRow_blocks_witness :
    (sampleRow 13 5 (4 * 5) = 3 ↔ 3 * 4 ≤ (13 : Int) ∧ (13 : Int) < 3 * 4 + 4) ∧
    (0 ≤ sampleRow 13 5 (4 * 5) ∧ sampleRow 13 5 (4 * 5) < 5) ∧
    ((0 : Int) ≤ 3 → (3 : Int) < 5 → (0 : Int) ≤ 3 * 4 ∧ (3 : Int) * 4 + 4 ≤ 4 * 5) ∧
    (List.range 20).map (fun j : Nat => sampleRow j 5 20) =
      [0, 0, 0, 0, 1, 1, 1, 1, 2, 2, 2, 2, 3, 3, 3, 3, 4, 4, 4, 4] :=
  sampleRow_blocks 5 4 13 3 (by decide) (by decide) (by decide) (by decide)

theorem take_set_succ {α : Type} (l : List α) (m : Nat) (x : α) (h : m < l.length) :
    (l.set m x).take (m + 1) = l.take m ++ [x] := by
  rw [List.set_eq_take_append_cons_drop, if_pos h]
  have e : List.take m l ++ x :: List.drop (m + 1) l =
      (List.take m l ++ [x]) ++ List.drop (m + 1) l := by simp
  rw [e]
  apply List.take_left'
  simp
  omega

theorem resampleLoop_eq {V : Type} (isNaN : V → Bool) (zero : V) (label : V → String)
    (xportRes : XportResult V) (n : Nat) :
    ∀ (fuel m : Nat) (data : List V) (dataLabels : List String),
      m ≤ n → data.length = n → dataLabels.length = n → n - m < fuel →
      resampleLoop isNaN zero label xportRes (n : Int) fuel (m : Int) data dataLabels =
        some
          (data.take m ++ (List.range' m (n - m)).map (fun j : Nat =>
              let x := xportRes.ValueAt 0 (sampleRow j xportRes.RowCnt n)
              if isNaN x then zero else x),
            dataLabels.take m ++ (List.range' m (n - m)).map (fun j : Nat =>
              label (xportRes.ValueAt 1 (sampleRow j xportRes.RowCnt n)))) := by
  intro fuel
  induction fuel with
  | zero => intro m data dataLabels _ _ _ hf; omega
  | succ fuel ih =>
    intro m data dataLabels hm hd hl hf
    unfold resampleLoop
    by_cases hlt : m < n
    · have c1 : (m : Int) < (n : Int) := by exact_mod_cast hlt
      have c2 : 0 ≤ (m : Int) ∧ (m : Int).toNat < dataLabels.length ∧
          (m : Int).toNat < data.length := by
        refine ⟨by omega, ?_, ?_⟩ <;> simp <;> omega
      rw [if_pos c1]
      simp only [if_pos c2]
      have e : ((m : Int) + 1) = ((m + 1 : Nat) : Int) := by push_cast; rfl
      rw [e, ih (m + 1) _ _ (by omega) (by simp [hd]) (by simp [hl]) (by omega)]
      have en : n - m = (n - (m + 1)) + 1 := by omega
      rw [en, List.range'_succ]
      simp only [Int.toNat_ofNat, List.map_cons]
      rw [take_set_succ _ _ _ (by omega), take_set_succ _ _ _ (by omega)]
      simp
    · have hmn : m = n := by omega
      subst hmn
      have c1 : ¬ ((m : Int) < (m : Int)) := by omega
      rw [if_neg c1]
      simp [List.take_of_length_le (le_of_eq hd), List.take_of_length_le (le_of_eq hl)]

theorem pointCount_eq (width : Int) (graphMode : String) :
    pointCount width graphMode =
      max 1 ((width - 10) * (if graphMode = "braille" then 2 else 1)) := by
  unfold pointCount
  by_cases h : graphMode = "braille"
  · simp only [h, if_true]
    split <;> omega
  · simp only [h, if_false]
    split <;> omega

theorem resample_eq {V : Type} (isNaN : V → Bool) (zero : V) (label : V → String)
    (xportRes : XportResult V) (P : Int) (hP : 1 ≤ P) :
    resample isNaN zero label xportRes P =
      some
        ((List.range P.toNat).map (fun j : Nat =>
            let x := xportRes.ValueAt 0 (sampleRow j xportRes.RowCnt P)
            if isNaN x then zero else x),
          (List.range P.toNat).map (fun j : Nat =>
            label (xportRes.ValueAt 1 (sampleRow j xportRes.RowCnt P)))) := by
  have e : ((P.toNat : Nat) : Int) = P := Int.toNat_of_nonneg (by omega)
  have h := resampleLoop_eq isNaN zero label xportRes P.toNat (P.toNat + 1) 0
    (List.replicate P.toNat zero) (List.replicate P.toNat "") (Nat.zero_le _)
    (by simp) (by simp) (by omega)
  rw [e] at h
  unfold resample
  rw [show (0 : Int) = ((0 : Nat) : Int) from rfl, h]
  simp [List.range_eq_range']

/-- C4: for every cell width, chart mode and dataset of a healthy file, and every
result of a successful query, whatever its row count, `renderDataset` returns the chart
with exactly `pointCount` data values and `pointCount` labels, where `pointCount` is
`width - 10`, doubled in the mode `braille`, and at least 1; the value of display point
`i` is read at the row `i * RowCnt / pointCount`. -/
theorem renderDataset_point_count {V : Type} (w : Nat) (isNaN : V → Bool) (zero : V)
    (label : V → String)
    (xport : String → String → String → Int → Int → Int → Except String (XportResult V))
    (s : View) (d : dataset) (width : Int) (graphMode : String) (xportRes : XportResult V)
    (herr : d.rrdFile.err = none)
    (hq : xport d.rrdFile.file d.ds d.cf (windowStart w s (pointCount width graphMode))
      s.endTime (maxRows (pointCount width graphMode)) = .ok xportRes) :
    ∃ data dataLabels,
      renderDataset w isNaN zero label xport s d width graphMode =
        some (.chart data dataLabels) ∧
      (data.length : Int) = pointCount width graphMode ∧
      (dataLabels.length : Int) = pointCount width graphMode ∧
      pointCount width graphMode =
        max 1 ((width - 10) * (if graphMode = "braille" then 2 else 1)) ∧
      data = (List.range (pointCount width graphMode).toNat).map (fun j : Nat =>
        let x := xportRes.ValueAt 0 (sampleRow j xportRes.RowCnt (pointCount width graphMode))
        if isNaN x then zero else x) := by
  have hP : 1 ≤ pointCount width graphMode := by
    rw [pointCount_eq]
    exact le_max_left _ _
  have e : (((pointCount width graphMode).toNat : Nat) : Int) = pointCount width graphMode :=
    Int.toNat_of_nonneg (by omega)
  refine ⟨_, (List.range (pointCount width graphMode).toNat).map (fun j : Nat =>
      label (xportRes.ValueAt 1 (sampleRow j xportRes.RowCnt (pointCount width graphMode)))),
    ?_, ?_, ?_, pointCount_eq width graphMode, rfl⟩
  · unfold renderDataset
    simp only [herr, hq, resample_eq isNaN zero label xportRes _ hP, Option.map_some']
  · simp [e]
  · simp [e]

/-- C4 for a 30 columns wide cell in the mode `braille` (40 display points) and a query
result of 5 rows. -/
theorem renderDataset_point_count_witness :
    ∃ data dataLabels,
      renderDataset 64 (fun _ => false) 0 (fun v => toString v) fiveRowXport
        (viewInit allInit) healthyDataset 30 "braille" = some (.chart data dataLabels) ∧
      (data.length : Int) = pointCount 30 "braille" ∧
      (dataLabels.length : Int) = pointCount 30 "braille" ∧
      pointCount 30 "braille" = max 1 ((30 - 10) * (if "braille" = "braille" then 2 else 1)) ∧
      data = (List.range (pointCount 30 "braille").toNat).map (fun j : Nat =>
        let x := (10 : Int) * sampleRow j 5 (pointCount 30 "braille") + 0
        if (fun _ => false) x then 0 else x) :=
  renderDataset_point_count 64 (fun _ => false) 0 (fun v => toString v) fiveRowXport
    (viewInit allInit) healthyDataset 30 "braille" { RowCnt := 5, ValueAt := fun c r => 10 * r + c }
    rfl rfl

/-! ## The viewport -/

theorem sliceAt_of_lt {α : Type} (xs : List α) (i : Int) (h0 : 0 ≤ i) (h : i < xs.length) :
    ∃ x, sliceAt xs i = some x ∧ x ∈ xs := by
  have hlt : i.toNat < xs.length := by omega
  refine ⟨xs[i.toNat], ?_, List.getElem_mem _⟩
  unfold sliceAt
  rw [if_pos h0]
  exact List.getElem?_eq_getElem hlt

theorem frameLoop_eq (cfs : GoMap) (F : List dataset) (vs d base : Int) (C K : Nat)
    (hF : ∀ x ∈ F, mapGet cfs x.cf = true) (hbase : base = vs * d) (hb0 : 0 ≤ base)
    (hC : (C : Int) = d * d) (hK : K = min C (F.length - base.toNat)) :
    ∀ (fuel i : Nat) (calls : List (Int × Int)), C - i < fuel →
      frameLoop cfs F vs d fuel (i : Int) (base + i) calls =
        some (calls ++ (List.range' i (K - i)).map (fun j : Nat => ((j : Int), base + j))) := by
  intro fuel
  induction fuel with
  | zero => intro i calls hf; omega
  | succ fuel ih =>
    intro i calls hf
    unfold frameLoop
    by_cases hc : (i : Int) < d * d ∧ base + (i : Int) < (F.length : Int)
    · rw [if_pos hc]
      obtain ⟨x, hx, hxF⟩ := sliceAt_of_lt F (base + i) (by omega) hc.2
      have hidx : (i : Int) + vs * d = base + i := by omega
      simp only [hx, hF x hxF, if_true, hidx]
      have e : base + (i : Int) + 1 = base + ((i + 1 : Nat) : Int) := by push_cast; ring
      have e' : ((i : Int) + 1) = ((i + 1 : Nat) : Int) := by push_cast; rfl
      rw [e, e', ih (i + 1) _ (by omega)]
      have hiK : i < K := by omega
      have en : K - i = (K - (i + 1)) + 1 := by omega
      rw [en, List.range'_succ]
      simp
    · rw [if_neg hc]
      have hiK : K - i = 0 := by
        rcases not_and_or.mp hc with h | h <;> omega
      simp [hiK]

theorem clampScroll_eq (S : Int) : clampScroll S = max S 0 := by
  unfold clampScroll
  split <;> omega

theorem mem_filterDatasets (cfs : GoMap) (datasets : List dataset) :
    ∀ x ∈ filterDatasets cfs datasets, mapGet cfs x.cf = true := by
  intro x hx
  unfold filterDatasets at hx
  exact (List.mem_filter.mp hx).2

/-- C2: for every catalog and `all.cfs` (with `N` the length of the filtered catalog),
every layout (grid dimension `d`) and every integer `vScroll = S`, one frame of
`renderLoop` calls `renderDataset`, cell after cell, with exactly the indices
`S' * d, S' * d + 1, ...` below `min (S' * d + d * d) N`, where `S' = max S 0`, in
increasing order; every index passed is at least 0 and below `N`. -/
theorem renderLoopFrame_indices (layout : Fin 6) (S : Int) (cfs : GoMap)
    (datasets : List dataset) :
    renderLoopFrame layout S cfs datasets =
      some ((List.range
          (min (max S 0 * layoutDim layout + layoutDim layout * layoutDim layout)
            ((filterDatasets cfs datasets).length : Int) - max S 0 * layoutDim layout).toNat).map
        (fun j : Nat => ((j : Int), max S 0 * layoutDim layout + j))) ∧
    ∀ calls, renderLoopFrame layout S cfs datasets = some calls →
      ∀ p ∈ calls, 0 ≤ p.2 ∧ p.2 < ((filterDatasets cfs datasets).length : Int) := by
  have hd := layoutDim_pos layout
  have hbase : 0 ≤ max S 0 * layoutDim layout := Int.mul_nonneg (by omega) (by omega)
  have hdd : 0 ≤ layoutDim layout * layoutDim layout := Int.mul_nonneg (by omega) (by omega)
  have hC : (((layoutDim layout * layoutDim layout).toNat : Nat) : Int) =
      layoutDim layout * layoutDim layout := Int.toNat_of_nonneg hdd
  have main := frameLoop_eq cfs (filterDatasets cfs datasets) (max S 0) (layoutDim layout)
    (max S 0 * layoutDim layout) (layoutDim layout * layoutDim layout).toNat _
    (mem_filterDatasets cfs datasets) rfl hbase hC rfl
    ((layoutDim layout * layoutDim layout).toNat + 1) 0 [] (by omega)
  have hK : min (layoutDim layout * layoutDim layout).toNat
      ((filterDatasets cfs datasets).length - (max S 0 * layoutDim layout).toNat) =
      (min (max S 0 * layoutDim layout + layoutDim layout * layoutDim layout)
        ((filterDatasets cfs datasets).length : Int) - max S 0 * layoutDim layout).toNat := by
    generalize layoutDim layout * layoutDim layout = C at *
    generalize max S 0 * layoutDim layout = b at *
    omega
  have first : renderLoopFrame layout S cfs datasets =
      some ((List.range
          (min (max S 0 * layoutDim layout + layoutDim layout * layoutDim layout)
            ((filterDatasets cfs datasets).length : Int) - max S 0 * layoutDim layout).toNat).map
        (fun j : Nat => ((j : Int), max S 0 * layoutDim layout + j))) := by
    unfold renderLoopFrame
    simp only [clampScroll_eq]
    simp only [Nat.cast_zero, add_zero, List.nil_append, Nat.sub_zero] at main
    rw [main, hK, List.range_eq_range']
  refine ⟨first, fun calls hcalls p hp => ?_⟩
  rw [first] at hcalls
  cases hcalls
  obtain ⟨j, hj, rfl⟩ := List.mem_map.mp hp
  have hj' := List.mem_range.mp hj
  simp only
  generalize layoutDim layout * layoutDim layout = C at *
  generalize max S 0 * layoutDim layout = b at *
  omega

/-- The scenario of the viewport: grid dimension 2, ten visible datasets and
`vScroll = 2` show the indices 4, 5, 6, 7 in the cells 0, 1, 2, 3; a negative `vScroll`
shows the indices from 0, and `vScroll = 4` only the last two datasets. -/
theorem renderLoopFrame_scenario :
    (filterDatasets [(cfErr, true), ("AVERAGE", true)] tenDatasets).length = 10 ∧
    renderLoopFrame 1 2 [(cfErr, true), ("AVERAGE", true)] tenDatasets =
      some [(0, 4), (1, 5), (2, 6), (3, 7)] ∧
    renderLoopFrame 1 (-3) [(cfErr, true), ("AVERAGE", true)] tenDatasets =
      some [(0, 0), (1, 1), (2, 2), (3, 3)] ∧
    renderLoopFrame 1 4 [(cfErr, true), ("AVERAGE", true)] tenDatasets =
      some [(0, 8), (1, 9)] := by
  decide

/-! ## The catalog -/

theorem mapKeys_mapSet (m : GoMap) (k : String) (v : Bool) :
    mapKeys (mapSet m k v) = if k ∈ mapKeys m then mapKeys m else mapKeys m ++ [k] := by
  induction m with
  | nil => simp [mapSet, mapKeys]
  | cons p rest ih =>
    obtain ⟨k0, v0⟩ := p
    unfold mapKeys at ih ⊢
    by_cases h0 : k0 = k
    · subst h0
      simp [mapSet]
    · have h0' : ¬ k = k0 := fun e => h0 e.symm
      simp only [mapSet, h0, if_false, List.map_cons, ih, List.mem_cons, h0', false_or]
      split <;> simp

theorem nameSet_fold_keys (names : List String) :
    ∀ m : GoMap, (mapKeys m).Nodup →
      (mapKeys (names.foldl (fun m name => mapSet m name true) m)).Nodup ∧
      ∀ x, x ∈ mapKeys (names.foldl (fun m name => mapSet m name true) m) ↔
        x ∈ mapKeys m ∨ x ∈ names := by
  induction names with
  | nil => intro m hm; simp [hm]
  | cons n rest ih =>
    intro m hm
    have hnd : (mapKeys (mapSet m n true)).Nodup := by
      rw [mapKeys_mapSet]
      split
      · exact hm
      · rename_i hn
        exact List.Nodup.append hm (List.nodup_singleton n) (by simpa using hn)
    obtain ⟨h1, h2⟩ := ih (mapSet m n true) hnd
    refine ⟨by simpa using h1, fun x => ?_⟩
    simp only [List.foldl_cons, h2, mapKeys_mapSet, List.mem_cons]
    split
    · rename_i hn
      constructor
      · rintro (h | h)
        · exact Or.inl h
        · exact Or.inr (Or.inr h)
      · rintro (h | h | h)
        · exact Or.inl h
        · exact Or.inl (h ▸ hn)
        · exact Or.inr h
    · simp only [List.mem_append, List.mem_singleton]
      tauto

theorem nameSet_length (names : List String) :
    (mapKeys (nameSet names)).length = names.toFinset.card := by
  obtain ⟨h1, h2⟩ := nameSet_fold_keys names [] (by simp [mapKeys])
  unfold nameSet
  rw [← List.toFinset_card_of_nodup h1]
  congr 1
  ext x
  rw [List.mem_toFinset, List.mem_toFinset, h2]
  simp [mapKeys]

theorem addDatasets_inner (rrd : rrdFile) (ds : String) (cfs : List String) :
    ∀ st : Discovery,
      (cfs.foldl
        (fun (st : Discovery) cf =>
          ({ datasets := st.datasets ++ [{ rrdFile := rrd, ds := ds, cf := cf }],
             all := { st.all with cfs := mapSet st.all.cfs cf true } } : Discovery))
        st).datasets =
        st.datasets ++ cfs.map (fun cf => ({ rrdFile := rrd, ds := ds, cf := cf } : dataset)) ∧
      (cfs.foldl
        (fun (st : Discovery) cf =>
          ({ datasets := st.datasets ++ [{ rrdFile := rrd, ds := ds, cf := cf }],
             all := { st.all with cfs := mapSet st.all.cfs cf true } } : Discovery))
        st).all.minSecPerRow = st.all.minSecPerRow := by
  induction cfs with
  | nil => intro st; simp
  | cons c rest ih =>
    intro st
    simp only [List.foldl_cons, List.map_cons]
    obtain ⟨h1, h2⟩ := ih
      { datasets := st.datasets ++ [{ rrdFile := rrd, ds := ds, cf := c }],
        all := { st.all with cfs := mapSet st.all.cfs c true } }
    rw [h1, h2]
    simp

theorem addDatasets_outer (rrd : rrdFile) (dss : List String) :
    ∀ st : Discovery,
      (dss.foldl
        (fun st ds =>
          (mapKeys rrd.cf).foldl
            (fun (st : Discovery) cf =>
              ({ datasets := st.datasets ++ [{ rrdFile := rrd, ds := ds, cf := cf }],
                 all := { st.all with cfs := mapSet st.all.cfs cf true } } : Discovery))
            st)
        st).datasets =
        st.datasets ++ dss.flatMap (fun ds =>
          (mapKeys rrd.cf).map (fun cf => ({ rrdFile := rrd, ds := ds, cf := cf } : dataset))) ∧
      (dss.foldl
        (fun st ds =>
          (mapKeys rrd.cf).foldl
            (fun (st : Discovery) cf =>
              ({ datasets := st.datasets ++ [{ rrdFile := rrd, ds := ds, cf := cf }],
                 all := { st.all with cfs := mapSet st.all.cfs cf true } } : Discovery))
            st)
        st).all.minSecPerRow = st.all.minSecPerRow := by
  induction dss with
  | nil => intro st; simp
  | cons d rest ih =>
    intro st
    simp only [List.foldl_cons, List.flatMap_cons]
    obtain ⟨h1, h2⟩ := ih ((mapKeys rrd.cf).foldl
      (fun (st : Discovery) cf =>
        ({ datasets := st.datasets ++ [{ rrdFile := rrd, ds := d, cf := cf }],
           all := { st.all with cfs := mapSet st.all.cfs cf true } } : Discovery))
      st)
    obtain ⟨g1, g2⟩ := addDatasets_inner rrd d (mapKeys rrd.cf) st
    rw [h1, h2, g1, g2]
    simp

theorem addFile_datasets (w : Nat) (rrdInfo : String → Except String Info) (st : Discovery)
    (file : String) :
    (addFile w rrdInfo st file).datasets = st.datasets ++ fileDatasets rrdInfo file := by
  unfold addFile fileDatasets
  cases rrdInfo file with
  | error err => rfl
  | ok info =>
    simp only [addDatasets]
    exact (addDatasets_outer (healthyFile file info) _ _).1

theorem getDatasetsFromFiles_datasets (w : Nat) (rrdInfo : String → Except String Info)
    (files : List String) :
    ∀ st : Discovery,
      (getDatasetsFromFiles w rrdInfo files st).datasets =
        st.datasets ++ files.flatMap (fileDatasets rrdInfo) := by
  unfold getDatasetsFromFiles
  induction files with
  | nil => intro st; simp
  | cons f rest ih =>
    intro st
    simp only [List.foldl_cons, List.flatMap_cons]
    rw [ih, addFile_datasets]
    simp

theorem fileDatasets_length (rrdInfo : String → Except String Info) (file : String) :
    (fileDatasets rrdInfo file).length = specCatalogSize rrdInfo file := by
  unfold fileDatasets specCatalogSize
  cases rrdInfo file with
  | error err => rfl
  | ok info =>
    simp only [List.length_flatMap, Function.comp_def, List.length_map, List.map_const',
      List.sum_replicate, smul_eq_mul]
    simp only [healthyFile, nameSet_length]

theorem fileDatasets_err (rrdInfo : String → Except String Info) (file : String) :
    ((fileDatasets rrdInfo file).filter (fun d => d.rrdFile.err.isSome)).length =
      (if infoFailed rrdInfo file then 1 else 0) ∧
    ∀ d ∈ fileDatasets rrdInfo file, d.rrdFile.err.isSome → d.ds = "" ∧ d.cf = cfErr := by
  unfold fileDatasets infoFailed
  cases rrdInfo file with
  | error err =>
    refine ⟨by simp [erroredDataset], fun d hd _ => ?_⟩
    simp only [List.mem_singleton] at hd
    subst hd
    exact ⟨rfl, rfl⟩
  | ok info =>
    have hall : ∀ d ∈ (mapKeys (healthyFile file info).ds).flatMap (fun ds =>
        (mapKeys (healthyFile file info).cf).map (fun cf =>
          ({ rrdFile := healthyFile file info, ds := ds, cf := cf } : dataset))),
        d.rrdFile.err.isSome = false := by
      intro d hd
      obtain ⟨ds, _, hd⟩ := List.mem_flatMap.mp hd
      obtain ⟨cf, _, rfl⟩ := List.mem_map.mp hd
      rfl
    refine ⟨?_, fun d hd he => ?_⟩
    · simp only [Bool.false_eq_true, if_false, List.length_eq_zero, List.filter_eq_nil_iff]
      intro d hd
      simp [hall d hd]
    · rw [hall d hd] at he
      cases he

theorem sum_specCatalogSize (rrdInfo : String → Except String Info) (files : List String) :
    (files.map (specCatalogSize rrdInfo)).sum =
      ((files.filter (fun file => !infoFailed rrdInfo file)).map
        (specCatalogSize rrdInfo)).sum + (files.filter (infoFailed rrdInfo)).length := by
  induction files with
  | nil => rfl
  | cons f rest ih =>
    have hf : infoFailed rrdInfo f = true → specCatalogSize rrdInfo f = 1 := by
      unfold infoFailed specCatalogSize
      cases rrdInfo f <;> simp
    cases h : infoFailed rrdInfo f with
    | true =>
      simp only [List.map_cons, List.sum_cons, ih, List.filter_cons, h, Bool.not_true,
        Bool.false_eq_true, if_false, if_true, List.length_cons, hf h]
      omega
    | false =>
      simp only [List.map_cons, List.sum_cons, ih, List.filter_cons, h, Bool.not_false,
        Bool.false_eq_true, if_false, if_true]
      omega

/-- C1: starting from the empty catalog, `getDatasetsFromFiles` leaves a catalog whose
length is the sum, over the files whose metadata query succeeded, of the number of
distinct series names times the number of distinct function names, plus one for every
file whose query failed; the datasets carrying an error are as many as the failed
files, each has the series name `""` and the function `err`, and every failed file has
its errored dataset in the catalog. -/
theorem catalog_length (w : Nat) (rrdInfo : String → Except String Info)
    (files : List String) :
    (getDatasetsFromFiles w rrdInfo files discoveryInit).datasets.length =
      ((files.filter (fun file => !infoFailed rrdInfo file)).map
        (fun file => match rrdInfo file with
          | .ok info => info.ds_type.toFinset.card * info.rra_cf.toFinset.card
          | .error _ => 0)).sum +
      (files.filter (infoFailed rrdInfo)).length ∧
    ((getDatasetsFromFiles w rrdInfo files discoveryInit).datasets.filter
      (fun d => d.rrdFile.err.isSome)).length = (files.filter (infoFailed rrdInfo)).length ∧
    (∀ d ∈ (getDatasetsFromFiles w rrdInfo files discoveryInit).datasets,
      d.rrdFile.err.isSome → d.ds = "" ∧ d.cf = cfErr) ∧
    (∀ file ∈ files, ∀ err, rrdInfo file = .error err →
      erroredDataset file err ∈ (getDatasetsFromFiles w rrdInfo files discoveryInit).datasets) := by
  have hds : (getDatasetsFromFiles w rrdInfo files discoveryInit).datasets =
      files.flatMap (fileDatasets rrdInfo) := by
    rw [getDatasetsFromFiles_datasets]
    rfl
  rw [hds]
  refine ⟨?_, ?_, ?_, ?_⟩
  · rw [List.length_flatMap]
    have e : List.length ∘ fileDatasets rrdInfo = specCatalogSize rrdInfo := by
      funext f
      exact fileDatasets_length rrdInfo f
    rw [e, sum_specCatalogSize]
    congr 2
    apply List.map_congr_left
    intro f hf
    have hf' := (List.mem_filter.mp hf).2
    unfold specCatalogSize
    unfold infoFailed at hf'
    cases h : rrdInfo f with
    | error err => simp [h] at hf'
    | ok info => rfl
  · clear hds
    induction files with
    | nil => rfl
    | cons f rest ih =>
      rw [List.flatMap_cons, List.filter_append, List.length_append, ih,
        (fileDatasets_err rrdInfo f).1, List.filter_cons]
      cases infoFailed rrdInfo f <;> simp
      omega
  · intro d hd he
    obtain ⟨f, _, hdf⟩ := List.mem_flatMap.mp hd
    exact (fileDatasets_err rrdInfo f).2 d hdf he
  · intro file hfile err herr
    refine List.mem_flatMap.mpr ⟨file, hfile, ?_⟩
    unfold fileDatasets
    rw [herr]
    exact List.mem_singleton.mpr rfl

/-! ## The finest native interval -/

theorem foldMin_spec (xs : List Nat) :
    ∀ m0 : Nat,
      xs.foldl (fun m x => if m > x then x else m) m0 ≤ m0 ∧
      (∀ x ∈ xs, xs.foldl (fun m x => if m > x then x else m) m0 ≤ x) ∧
      (xs.foldl (fun m x => if m > x then x else m) m0 = m0 ∨
        xs.foldl (fun m x => if m > x then x else m) m0 ∈ xs) := by
  induction xs with
  | nil => intro m0; simp
  | cons a rest ih =>
    intro m0
    simp only [List.foldl_cons, List.mem_cons]
    by_cases hgt : m0 > a
    · obtain ⟨h1, h2, h3⟩ := ih a
      rw [if_pos hgt]
      refine ⟨by omega, ?_, ?_⟩
      · rintro x (rfl | hx)
        · exact h1
        · exact h2 x hx
      · rcases h3 with h | h
        · exact Or.inr (Or.inl h)
        · exact Or.inr (Or.inr h)
    · obtain ⟨h1, h2, h3⟩ := ih m0
      rw [if_neg hgt]
      refine ⟨h1, ?_, ?_⟩
      · rintro x (rfl | hx)
        · omega
        · exact h2 x hx
      · rcases h3 with h | h
        · exact Or.inl h
        · exact Or.inr (Or.inr h)

theorem foldSecPerRow_eq (w step m0 : Nat) (pdp_per_row : List Nat) :
    foldSecPerRow w step m0 pdp_per_row =
      (pdp_per_row.map (fun pdpPerRow => (step * pdpPerRow) % 2 ^ w)).foldl
        (fun m x => if m > x then x else m) m0 := by
  unfold foldSecPerRow
  rw [List.foldl_map]

theorem addFile_minSecPerRow (w : Nat) (rrdInfo : String → Except String Info)
    (st : Discovery) (file : String) :
    (addFile w rrdInfo st file).all.minSecPerRow =
      (secPerRows w rrdInfo [file]).foldl (fun m x => if m > x then x else m)
        st.all.minSecPerRow := by
  have e : secPerRows w rrdInfo [file] =
      match rrdInfo file with
      | .error _ => []
      | .ok info => info.pdp_per_row.map fun pdpPerRow => (info.step * pdpPerRow) % 2 ^ w := by
    simp [secPerRows]
  rw [e]
  unfold addFile
  cases rrdInfo file with
  | error err => rfl
  | ok info =>
    simp only [addDatasets]
    rw [(addDatasets_outer (healthyFile file info) _ _).2, foldSecPerRow_eq]

theorem getDatasetsFromFiles_minSecPerRow (w : Nat) (rrdInfo : String → Except String Info)
    (files : List String) :
    ∀ st : Discovery,
      (getDatasetsFromFiles w rrdInfo files st).all.minSecPerRow =
        (secPerRows w rrdInfo files).foldl (fun m x => if m > x then x else m)
          st.all.minSecPerRow := by
  unfold getDatasetsFromFiles
  induction files with
  | nil => intro st; rfl
  | cons f rest ih =>
    intro st
    rw [List.foldl_cons, ih, addFile_minSecPerRow]
    unfold secPerRows
    simp only [List.flatMap_cons, List.flatMap_nil, List.append_nil, List.foldl_append]

/-- C9 fails as stated: on a 64-bit `uint`, a single healthy file with a step of 86400
seconds and one archive of 50000 samples per row has the product 4320000000, above
`math.MaxUint32`, so `minSecPerRow` stays at the sentinel 4294967295 although a source
is healthy and the minimum of the products is 4320000000. -/
theorem minSecPerRow_counterexample :
    (getDatasetsFromFiles 64 coarseInfo ["fileA"] discoveryInit).all.minSecPerRow =
      4294967295 ∧
    infoFailed coarseInfo "fileA" = false ∧
    secPerRows 64 coarseInfo ["fileA"] = [4320000000] ∧
    86400 * 50000 = 4320000000 := by
  decide

/-- C9, as amended: after `getDatasetsFromFiles` from the initial state, `minSecPerRow`
is the minimum of the sentinel `math.MaxUint32` and of the `uint` products
`step * pdpPerRow` of all archives of all files whose metadata query succeeded: it is at
most the sentinel and at most every product, and it is the sentinel or one of the
products.  A file whose query failed leaves `all` unchanged, so with no healthy file
the result is the sentinel; in the scenario of one healthy file with step 60 and 1
sample per row and one failing file it is 60. -/
theorem minSecPerRow_eq (w : Nat) (rrdInfo : String → Except String Info)
    (files : List String) :
    (getDatasetsFromFiles w rrdInfo files discoveryInit).all.minSecPerRow ≤ maxUint32 ∧
    (∀ x ∈ secPerRows w rrdInfo files,
      (getDatasetsFromFiles w rrdInfo files discoveryInit).all.minSecPerRow ≤ x) ∧
    ((getDatasetsFromFiles w rrdInfo files discoveryInit).all.minSecPerRow = maxUint32 ∨
      (getDatasetsFromFiles w rrdInfo files discoveryInit).all.minSecPerRow ∈
        secPerRows w rrdInfo files) ∧
    (∀ (st : Discovery) (file err : String), rrdInfo file = .error err →
      (addFile w rrdInfo st file).all = st.all) ∧
    ((∀ file ∈ files, infoFailed rrdInfo file = true) →
      (getDatasetsFromFiles w rrdInfo files discoveryInit).all.minSecPerRow = maxUint32) ∧
    (getDatasetsFromFiles 64 scenarioInfo ["fileA", "fileB"] discoveryInit).all.minSecPerRow =
      60 ∧
    (getDatasetsFromFiles 32 scenarioInfo ["fileA", "fileB"] discoveryInit).all.minSecPerRow =
      60 := by
  have hm := getDatasetsFromFiles_minSecPerRow w rrdInfo files discoveryInit
  have hinit : discoveryInit.all.minSecPerRow = maxUint32 := rfl
  rw [hinit] at hm
  obtain ⟨h1, h2, h3⟩ := foldMin_spec (secPerRows w rrdInfo files) maxUint32
  rw [hm]
  refine ⟨h1, h2, h3, ?_, ?_, by decide, by decide⟩
  · intro st file err herr
    unfold addFile
    rw [herr]
  · intro hall
    have hnil : secPerRows w rrdInfo files = [] := by
      unfold secPerRows
      rw [List.flatMap_eq_nil_iff]
      intro f hf
      have := hall f hf
      unfold infoFailed at this
      cases h : rrdInfo f with
      | error err => rfl
      | ok info => simp [h] at this
    rw [hnil]
    rfl

/-- The scenario of the catalog: the healthy `fileA` and the failing `fileB` give the
two datasets `(fileA, temp, AVERAGE)` and `(fileB, "", err)`, the functions `err` and
`AVERAGE` both shown, and `minSecPerRow = 60`. -/
theorem catalog_scenario :
    getDatasetsFromFiles 64 scenarioInfo ["fileA", "fileB"] discoveryInit =
      { datasets := [healthyDataset, erroredDataset "fileB" "not an rrd file"],
        all := { lastUpdate := 100, cfs := [("err", true), ("AVERAGE", true)],
                 minSecPerRow := 60 } } := by
  decide

end Rrdtg
